import Mathlib

/-!
Verification of the kinematic-edge cost functions of the teb_local_planner
repository (file `include/teb_local_planner/g2o_types/edge_kinematics.h`).

Doubles are modelled as real numbers, Eigen 2d vectors as explicit `x`/`y`
components, and the g2o vertex type `VertexPose` as a record with a position
and a heading.  Helper functions that the header calls but whose sources are
not part of the provided tree (the penalty library `penalties.h`, and the
g2o helpers `normalize_theta` and `sign`) are modelled as documented at their
definitions.
-/

namespace TebLocalPlanner

/-- A VertexPose value: 2d position `(x, y)` together with a heading `theta`
(radians).  Mirrors `conf->position()` and `conf->theta()` in the source. -/
structure Pose where
  x : ℝ
  y : ℝ
  theta : ℝ

/-- The slice of `TebConfig` that the kinematic edges read:
`cfg_->robot.min_turning_radius`. -/
structure TebConfig where
  min_turning_radius : ℝ

/-- Modelled from the spec: `penalties.h` is not among the provided sources.
Spec section 4.1 together with section 8 (residual "equals
min_turning_radius − r" below the bound, zero at or above `a + epsilon`,
continuous at the boundary) pins the one-sided linear penalty:
zero for `var ≥ a + epsilon`, otherwise `-var + (a + epsilon)`. -/
noncomputable def penaltyBoundFromBelow (var a epsilon : ℝ) : ℝ :=
  if var ≥ a + epsilon then 0 else -var + (a + epsilon)

/-- Modelled from the spec: derivative of `penaltyBoundFromBelow` with
respect to `var` (spec section 4.1): zero on the inactive branch,
`-1` on the active branch. -/
noncomputable def penaltyBoundFromBelowDerivative (var a epsilon : ℝ) : ℝ :=
  if var ≥ a + epsilon then 0 else -1

/-- The g2o helper `g2o::normalize_theta` (external dependency, from g2o
`stuff/misc.h`): wraps an angle into `[-pi, pi)` by subtracting the floor
multiple of `2*pi` and correcting the boundary. -/
noncomputable def normalize_theta (theta : ℝ) : ℝ :=
  if -Real.pi ≤ theta ∧ theta < Real.pi then theta
  else
    let multiplier : ℝ := ⌊theta / (2 * Real.pi)⌋
    let t := theta - multiplier * 2 * Real.pi
    if Real.pi ≤ t then t - 2 * Real.pi
    else if t < -Real.pi then t + 2 * Real.pi
    else t

/-- The g2o helper `g2o::sign` (external dependency): `1` on positives,
`-1` on negatives, `0` at zero, mapped into the reals. -/
noncomputable def g2oSign (x : ℝ) : ℝ :=
  if 0 < x then 1 else if x < 0 then -1 else 0

/-- The expression inside `fabs` in the first error component of both edges
(`edge_kinematics.h` lines 114 and 285):
`(cos θ1 + cos θ2)·Δy − (sin θ1 + sin θ2)·Δx` with `Δ = conf2.pos − conf1.pos`. -/
noncomputable def nhExpr (conf1 conf2 : Pose) : ℝ :=
  (Real.cos conf1.theta + Real.cos conf2.theta) * (conf2.y - conf1.y) -
    (Real.sin conf1.theta + Real.sin conf2.theta) * (conf2.x - conf1.x)

/-- The argument of the drive-direction penalty, `deltaS.dot(angle_vec)`
(`edge_kinematics.h` lines 117 and 118). -/
noncomputable def driveDot (conf1 conf2 : Pose) : ℝ :=
  (conf2.x - conf1.x) * Real.cos conf1.theta +
    (conf2.y - conf1.y) * Real.sin conf1.theta

/-- EdgeKinematicsDiffDrive::computeError (`edge_kinematics.h` lines 105 to
122), as a pure function of the two vertex poses: component 0 is the
non-holonomic residual, component 1 the drive-direction penalty with both
bound and epsilon equal to 0. -/
noncomputable def diffDriveComputeError (conf1 conf2 : Pose) : ℝ × ℝ :=
  (|nhExpr conf1 conf2|, penaltyBoundFromBelow (driveDot conf1 conf2) 0 0)

/-- EdgeKinematicsCarlike::computeError (`edge_kinematics.h` lines 276 to
300), as a pure function of the configuration and the two vertex poses:
component 0 is the same non-holonomic residual; component 1 is 0 when the
normalized heading difference `omega_t` is exactly 0, otherwise the
turning-radius penalty on `deltaS.norm() / |omega_t|`. -/
noncomputable def carlikeComputeError (cfg : TebConfig) (conf1 conf2 : Pose) : ℝ × ℝ :=
  let deltaNorm := Real.sqrt ((conf2.x - conf1.x) ^ 2 + (conf2.y - conf1.y) ^ 2)
  let omega_t := normalize_theta (conf2.theta - conf1.theta)
  (|nhExpr conf1 conf2|,
    if omega_t = 0 then 0
    else penaltyBoundFromBelow (deltaNorm / |omega_t|) cfg.min_turning_radius 0)

/-- An angle already inside the principal interval is returned unchanged by
`normalize_theta` (first branch of the g2o helper). -/
theorem normalize_theta_of_mem (theta : ℝ) (h1 : -Real.pi ≤ theta)
    (h2 : theta < Real.pi) : normalize_theta theta = theta := by
  unfold normalize_theta
  rw [if_pos ⟨h1, h2⟩]

/-- Unfolding of the second component of the car-like error. -/
theorem carlikeComputeError_snd (cfg : TebConfig) (conf1 conf2 : Pose) :
    (carlikeComputeError cfg conf1 conf2).2 =
      if normalize_theta (conf2.theta - conf1.theta) = 0 then 0
      else penaltyBoundFromBelow
        (Real.sqrt ((conf2.x - conf1.x) ^ 2 + (conf2.y - conf1.y) ^ 2) /
          |normalize_theta (conf2.theta - conf1.theta)|)
        cfg.min_turning_radius 0 := rfl

/-- The implied turning radius `deltaS.norm() / fabs(omega_t)` used by the
car-like edge on its nonzero-rotation branch (`edge_kinematics.h` line 292). -/
noncomputable def impliedRadius (conf1 conf2 : Pose) : ℝ :=
  Real.sqrt ((conf2.x - conf1.x) ^ 2 + (conf2.y - conf1.y) ^ 2) /
    |normalize_theta (conf2.theta - conf1.theta)|

/-- C2: when the normalized heading difference is exactly zero, the second
error component of the car-like edge is exactly zero, whatever the
displacement; the division by the heading difference is guarded away. -/
theorem carlike_zero_rotation_zero_residual (cfg : TebConfig) (conf1 conf2 : Pose)
    (h : normalize_theta (conf2.theta - conf1.theta) = 0) :
    (carlikeComputeError cfg conf1 conf2).2 = 0 := by
  rw [carlikeComputeError_snd, if_pos h]

/-- Witness for C2 at `theta1 = theta2 = 1/2` with a large displacement. -/
theorem carlike_zero_rotation_zero_residual_witness :
    normalize_theta ((Pose.mk 5 7 (1/2)).theta - (Pose.mk 0 0 (1/2)).theta) = 0 ∧
    (carlikeComputeError ⟨1⟩ ⟨0, 0, 1/2⟩ ⟨5, 7, 1/2⟩).2 = 0 := by
  have h0 : normalize_theta ((Pose.mk 5 7 (1/2)).theta - (Pose.mk 0 0 (1/2)).theta) = 0 := by
    show normalize_theta ((1:ℝ)/2 - 1/2) = 0
    rw [show (1:ℝ)/2 - 1/2 = 0 by ring]
    exact normalize_theta_of_mem 0 (by linarith [Real.pi_pos]) Real.pi_pos
  exact ⟨h0, carlike_zero_rotation_zero_residual ⟨1⟩ ⟨0, 0, 1/2⟩ ⟨5, 7, 1/2⟩ h0⟩

/-- C3: with nonzero normalized heading difference, the second car-like error
component is the from-below penalty on the implied radius with bound
`min_turning_radius` and epsilon 0; below the bound it equals
`min_turning_radius − r` and is strictly positive, at or above the bound it
is zero. -/
theorem carlike_turning_radius_penalty (cfg : TebConfig) (conf1 conf2 : Pose)
    (h : normalize_theta (conf2.theta - conf1.theta) ≠ 0) :
    (carlikeComputeError cfg conf1 conf2).2 =
      penaltyBoundFromBelow (impliedRadius conf1 conf2) cfg.min_turning_radius 0 ∧
    (impliedRadius conf1 conf2 < cfg.min_turning_radius →
      (carlikeComputeError cfg conf1 conf2).2 =
        cfg.min_turning_radius - impliedRadius conf1 conf2 ∧
      0 < (carlikeComputeError cfg conf1 conf2).2) ∧
    (cfg.min_turning_radius ≤ impliedRadius conf1 conf2 →
      (carlikeComputeError cfg conf1 conf2).2 = 0) := by
  have hmain : (carlikeComputeError cfg conf1 conf2).2 =
      penaltyBoundFromBelow (impliedRadius conf1 conf2) cfg.min_turning_radius 0 := by
    rw [carlikeComputeError_snd, if_neg h]
    rfl
  refine ⟨hmain, ?_, ?_⟩
  · intro hlt
    rw [hmain]
    unfold penaltyBoundFromBelow
    rw [if_neg (by rw [add_zero]; exact not_le.mpr hlt)]
    constructor
    · ring
    · have := sub_pos.mpr hlt
      linarith
  · intro hge
    rw [hmain]
    unfold penaltyBoundFromBelow
    rw [if_pos (by rw [add_zero]; exact hge)]

/-- Witness for C3: a pure rotation by 1 radian with min_turning_radius 2
gives implied radius 0 and residual 2. -/
theorem carlike_turning_radius_penalty_witness :
    normalize_theta ((Pose.mk 0 0 1).theta - (Pose.mk 0 0 0).theta) ≠ 0 ∧
    (carlikeComputeError ⟨2⟩ ⟨0, 0, 0⟩ ⟨0, 0, 1⟩).2 = 2 ∧
    0 < (carlikeComputeError ⟨2⟩ ⟨0, 0, 0⟩ ⟨0, 0, 1⟩).2 := by
  have hn : normalize_theta ((Pose.mk 0 0 1).theta - (Pose.mk 0 0 0).theta) = 1 := by
    show normalize_theta ((1:ℝ) - 0) = 1
    rw [show (1:ℝ) - 0 = 1 by ring]
    exact normalize_theta_of_mem 1 (by linarith [Real.pi_gt_three])
      (by linarith [Real.pi_gt_three])
  have hne : normalize_theta ((Pose.mk 0 0 1).theta - (Pose.mk 0 0 0).theta) ≠ 0 := by
    rw [hn]; exact one_ne_zero
  have hr : impliedRadius ⟨0, 0, 0⟩ ⟨0, 0, 1⟩ = 0 := by
    unfold impliedRadius
    rw [hn]
    simp
  obtain ⟨h1, h2, h3⟩ := carlike_turning_radius_penalty ⟨2⟩ ⟨0, 0, 0⟩ ⟨0, 0, 1⟩ hne
  have hlt : impliedRadius ⟨0, 0, 0⟩ ⟨0, 0, 1⟩ < (2:ℝ) := by rw [hr]; norm_num
  obtain ⟨heq, hpos⟩ := h2 hlt
  refine ⟨hne, ?_, hpos⟩
  rw [heq, hr]
  norm_num

/-- C9: when the two positions coincide but the normalized heading difference
is nonzero, the second car-like error component equals `min_turning_radius`
exactly (assuming the configured radius is nonnegative), and is strictly
positive whenever `min_turning_radius` is. -/
theorem carlike_pure_rotation_full_penalty (cfg : TebConfig) (conf1 conf2 : Pose)
    (hx : conf2.x = conf1.x) (hy : conf2.y = conf1.y)
    (hth : normalize_theta (conf2.theta - conf1.theta) ≠ 0)
    (hR : 0 ≤ cfg.min_turning_radius) :
    (carlikeComputeError cfg conf1 conf2).2 = cfg.min_turning_radius ∧
    (0 < cfg.min_turning_radius →
      0 < (carlikeComputeError cfg conf1 conf2).2) := by
  have hr : impliedRadius conf1 conf2 = 0 := by
    unfold impliedRadius
    rw [hx, hy]
    simp
  obtain ⟨h1, h2, h3⟩ := carlike_turning_radius_penalty cfg conf1 conf2 hth
  rcases eq_or_lt_of_le hR with hz | hpos
  · have h0 : (carlikeComputeError cfg conf1 conf2).2 = 0 := h3 (by rw [hr, ← hz])
    refine ⟨by rw [h0, ← hz], ?_⟩
    intro hc
    exact absurd hc (by rw [← hz] at hc ⊢; exact lt_irrefl 0 hc |>.elim)
  · obtain ⟨heq, hp⟩ := h2 (by rw [hr]; exact hpos)
    refine ⟨by rw [heq, hr, sub_zero], fun _ => hp⟩

/-- Witness for C9: coincident positions, rotation by 1 radian, radius 2. -/
theorem carlike_pure_rotation_full_penalty_witness :
    normalize_theta ((Pose.mk 3 4 1).theta - (Pose.mk 3 4 0).theta) ≠ 0 ∧
    (0:ℝ) ≤ 2 ∧
    (carlikeComputeError ⟨2⟩ ⟨3, 4, 0⟩ ⟨3, 4, 1⟩).2 = 2 ∧
    0 < (carlikeComputeError ⟨2⟩ ⟨3, 4, 0⟩ ⟨3, 4, 1⟩).2 := by
  have hn : normalize_theta ((Pose.mk 3 4 1).theta - (Pose.mk 3 4 0).theta) = 1 := by
    show normalize_theta ((1:ℝ) - 0) = 1
    rw [show (1:ℝ) - 0 = 1 by ring]
    exact normalize_theta_of_mem 1 (by linarith [Real.pi_gt_three])
      (by linarith [Real.pi_gt_three])
  have hne : normalize_theta ((Pose.mk 3 4 1).theta - (Pose.mk 3 4 0).theta) ≠ 0 := by
    rw [hn]; exact one_ne_zero
  obtain ⟨h1, h2⟩ := carlike_pure_rotation_full_penalty ⟨2⟩ ⟨3, 4, 0⟩ ⟨3, 4, 1⟩
    rfl rfl hne (by norm_num)
  exact ⟨hne, by norm_num, h1, h2 (by norm_num)⟩

/-- C1: the first error component of the diff-drive edge equals the absolute
value of `(cos θ1 + cos θ2)·Δy − (sin θ1 + sin θ2)·Δx` and is nonnegative
for every pair of poses. -/
theorem diffDrive_nh_component_abs_nonneg (conf1 conf2 : Pose) :
    (diffDriveComputeError conf1 conf2).1 =
      |(Real.cos conf1.theta + Real.cos conf2.theta) * (conf2.y - conf1.y) -
        (Real.sin conf1.theta + Real.sin conf2.theta) * (conf2.x - conf1.x)| ∧
    0 ≤ (diffDriveComputeError conf1 conf2).1 := by
  refine ⟨rfl, ?_⟩
  exact abs_nonneg _

/-- The from-below penalty is nonnegative for all arguments. -/
theorem penaltyBoundFromBelow_nonneg (var a epsilon : ℝ) :
    0 ≤ penaltyBoundFromBelow var a epsilon := by
  unfold penaltyBoundFromBelow
  split
  · exact le_refl 0
  · linarith [not_le.mp (by assumption)]

/-- C4: the second diff-drive error component is the from-below penalty on
`deltaS · (cos θ1, sin θ1)` with bound and epsilon both zero: it vanishes on
forward-pointing displacements, equals the (positive) magnitude of the dot
product on backward ones, and grows strictly as the displacement points
further backward. -/
theorem diffDrive_drive_direction_penalty (conf1 conf2 conf2b : Pose) :
    (diffDriveComputeError conf1 conf2).2 =
      penaltyBoundFromBelow (driveDot conf1 conf2) 0 0 ∧
    (0 ≤ driveDot conf1 conf2 → (diffDriveComputeError conf1 conf2).2 = 0) ∧
    (driveDot conf1 conf2 < 0 →
      (diffDriveComputeError conf1 conf2).2 = -driveDot conf1 conf2 ∧
      0 < (diffDriveComputeError conf1 conf2).2) ∧
    (driveDot conf1 conf2b < driveDot conf1 conf2 → driveDot conf1 conf2 < 0 →
      (diffDriveComputeError conf1 conf2).2 <
        (diffDriveComputeError conf1 conf2b).2) := by
  have hval : ∀ q : Pose, (diffDriveComputeError conf1 q).2 =
      penaltyBoundFromBelow (driveDot conf1 q) 0 0 := fun _ => rfl
  have hneg : ∀ q : Pose, driveDot conf1 q < 0 →
      (diffDriveComputeError conf1 q).2 = -driveDot conf1 q := by
    intro q hq
    rw [hval q]
    unfold penaltyBoundFromBelow
    rw [if_neg (by rw [add_zero]; exact not_le.mpr hq)]
    ring
  refine ⟨hval conf2, ?_, ?_, ?_⟩
  · intro h
    rw [hval conf2]
    unfold penaltyBoundFromBelow
    rw [if_pos (by rw [add_zero]; exact h)]
  · intro h
    refine ⟨hneg conf2 h, ?_⟩
    rw [hneg conf2 h]
    linarith
  · intro hlt h
    rw [hneg conf2 h, hneg conf2b (lt_trans hlt h)]
    linarith

/-- Witness for C4: heading 0, forward displacement 3 gives residual 0;
backward displacements −1 and −2 give residuals 1 and 2. -/
theorem diffDrive_drive_direction_penalty_witness :
    (diffDriveComputeError ⟨0, 0, 0⟩ ⟨3, 0, 0⟩).2 = 0 ∧
    driveDot ⟨0, 0, 0⟩ ⟨-2, 0, 0⟩ < driveDot ⟨0, 0, 0⟩ ⟨-1, 0, 0⟩ ∧
    driveDot ⟨0, 0, 0⟩ ⟨-1, 0, 0⟩ < 0 ∧
    (diffDriveComputeError ⟨0, 0, 0⟩ ⟨-1, 0, 0⟩).2 = 1 ∧
    0 < (diffDriveComputeError ⟨0, 0, 0⟩ ⟨-1, 0, 0⟩).2 ∧
    (diffDriveComputeError ⟨0, 0, 0⟩ ⟨-1, 0, 0⟩).2 <
      (diffDriveComputeError ⟨0, 0, 0⟩ ⟨-2, 0, 0⟩).2 := by
  have hd1 : driveDot ⟨0, 0, 0⟩ ⟨-1, 0, 0⟩ = -1 := by
    unfold driveDot
    simp
  have hd2 : driveDot ⟨0, 0, 0⟩ ⟨-2, 0, 0⟩ = -2 := by
    unfold driveDot
    simp
  have hd3 : driveDot ⟨0, 0, 0⟩ ⟨3, 0, 0⟩ = 3 := by
    unfold driveDot
    simp
  obtain ⟨_, hfwd, _, _⟩ := diffDrive_drive_direction_penalty ⟨0, 0, 0⟩ ⟨3, 0, 0⟩ ⟨3, 0, 0⟩
  obtain ⟨_, _, hbwd, hmono⟩ := diffDrive_drive_direction_penalty ⟨0, 0, 0⟩ ⟨-1, 0, 0⟩ ⟨-2, 0, 0⟩
  obtain ⟨he1, hp1⟩ := hbwd (by rw [hd1]; norm_num)
  refine ⟨hfwd (by rw [hd3]; norm_num), by rw [hd1, hd2]; norm_num,
    by rw [hd1]; norm_num, by rw [he1, hd1]; norm_num, hp1, ?_⟩
  exact hmono (by rw [hd1, hd2]; norm_num) (by rw [hd1]; norm_num)

/-- C8: in the exact real model of the doubles, both components of both
error vectors satisfy explicit finite bounds in terms of the (finite)
inputs, so the trailing finiteness assertion of `computeError` can never
fire: the first components are bounded by twice the 1-norm of the
displacement, the diff-drive second component by the 1-norm itself, and the
car-like second component by `max min_turning_radius 0`; all components are
nonnegative. -/
theorem computeError_components_finite (cfg : TebConfig) (conf1 conf2 : Pose) :
    0 ≤ (diffDriveComputeError conf1 conf2).1 ∧
    (diffDriveComputeError conf1 conf2).1 ≤
      2 * (|conf2.y - conf1.y| + |conf2.x - conf1.x|) ∧
    0 ≤ (diffDriveComputeError conf1 conf2).2 ∧
    (diffDriveComputeError conf1 conf2).2 ≤
      |conf2.x - conf1.x| + |conf2.y - conf1.y| ∧
    0 ≤ (carlikeComputeError cfg conf1 conf2).1 ∧
    (carlikeComputeError cfg conf1 conf2).1 ≤
      2 * (|conf2.y - conf1.y| + |conf2.x - conf1.x|) ∧
    0 ≤ (carlikeComputeError cfg conf1 conf2).2 ∧
    (carlikeComputeError cfg conf1 conf2).2 ≤ max cfg.min_turning_radius 0 := by
  have hnh : |nhExpr conf1 conf2| ≤
      2 * (|conf2.y - conf1.y| + |conf2.x - conf1.x|) := by
    unfold nhExpr
    have h1 : |(Real.cos conf1.theta + Real.cos conf2.theta) * (conf2.y - conf1.y)| ≤
        2 * |conf2.y - conf1.y| := by
      rw [abs_mul]
      have : |Real.cos conf1.theta + Real.cos conf2.theta| ≤ 2 := by
        calc |Real.cos conf1.theta + Real.cos conf2.theta| ≤
            |Real.cos conf1.theta| + |Real.cos conf2.theta| := abs_add _ _
          _ ≤ 2 := by
            linarith [Real.abs_cos_le_one conf1.theta, Real.abs_cos_le_one conf2.theta]
      exact mul_le_mul_of_nonneg_right this (abs_nonneg _) |>.trans_eq rfl
    have h2 : |(Real.sin conf1.theta + Real.sin conf2.theta) * (conf2.x - conf1.x)| ≤
        2 * |conf2.x - conf1.x| := by
      rw [abs_mul]
      have : |Real.sin conf1.theta + Real.sin conf2.theta| ≤ 2 := by
        calc |Real.sin conf1.theta + Real.sin conf2.theta| ≤
            |Real.sin conf1.theta| + |Real.sin conf2.theta| := abs_add _ _
          _ ≤ 2 := by
            linarith [Real.abs_sin_le_one conf1.theta, Real.abs_sin_le_one conf2.theta]
      exact mul_le_mul_of_nonneg_right this (abs_nonneg _)
    calc |(Real.cos conf1.theta + Real.cos conf2.theta) * (conf2.y - conf1.y) -
          (Real.sin conf1.theta + Real.sin conf2.theta) * (conf2.x - conf1.x)| ≤
        |(Real.cos conf1.theta + Real.cos conf2.theta) * (conf2.y - conf1.y)| +
          |(Real.sin conf1.theta + Real.sin conf2.theta) * (conf2.x - conf1.x)| :=
        abs_sub _ _
      _ ≤ 2 * (|conf2.y - conf1.y| + |conf2.x - conf1.x|) := by linarith
  have hdd : (diffDriveComputeError conf1 conf2).2 ≤
      |conf2.x - conf1.x| + |conf2.y - conf1.y| := by
    show penaltyBoundFromBelow (driveDot conf1 conf2) 0 0 ≤ _
    unfold penaltyBoundFromBelow
    split
    · positivity
    · have hlt : driveDot conf1 conf2 < 0 + 0 := not_le.mp (by assumption)
      have habs : |driveDot conf1 conf2| ≤ |conf2.x - conf1.x| + |conf2.y - conf1.y| := by
        unfold driveDot
        calc |(conf2.x - conf1.x) * Real.cos conf1.theta +
              (conf2.y - conf1.y) * Real.sin conf1.theta| ≤
            |(conf2.x - conf1.x) * Real.cos conf1.theta| +
              |(conf2.y - conf1.y) * Real.sin conf1.theta| := abs_add _ _
          _ ≤ |conf2.x - conf1.x| + |conf2.y - conf1.y| := by
            rw [abs_mul, abs_mul]
            have hx := mul_le_mul_of_nonneg_left (Real.abs_cos_le_one conf1.theta)
              (abs_nonneg (conf2.x - conf1.x))
            have hy := mul_le_mul_of_nonneg_left (Real.abs_sin_le_one conf1.theta)
              (abs_nonneg (conf2.y - conf1.y))
            linarith [mul_one |conf2.x - conf1.x|, mul_one |conf2.y - conf1.y|]
      rw [abs_of_neg (by linarith : driveDot conf1 conf2 < 0)] at habs
      linarith
  have hcl : (carlikeComputeError cfg conf1 conf2).2 ≤ max cfg.min_turning_radius 0 := by
    rw [carlikeComputeError_snd]
    split
    · exact le_max_right _ _
    · unfold penaltyBoundFromBelow
      split
      · exact le_max_right _ _
      · have hrnn : 0 ≤ Real.sqrt ((conf2.x - conf1.x) ^ 2 + (conf2.y - conf1.y) ^ 2) /
            |normalize_theta (conf2.theta - conf1.theta)| :=
          div_nonneg (Real.sqrt_nonneg _) (abs_nonneg _)
        have := le_max_left cfg.min_turning_radius (0:ℝ)
        linarith
  have hclnn : 0 ≤ (carlikeComputeError cfg conf1 conf2).2 := by
    rw [carlikeComputeError_snd]
    split
    · exact le_refl 0
    · exact penaltyBoundFromBelow_nonneg _ _ _
  exact ⟨abs_nonneg _, hnh, penaltyBoundFromBelow_nonneg _ _ _, hdd,
    abs_nonneg _, hnh, hclnn, hcl⟩

/-- EdgeKinematicsDiffDrive::linearizeOplus (`edge_kinematics.h` lines 129 to
166): the pair of 2×3 Jacobian blocks with respect to vertex 0 and vertex 1,
written entry for entry from the source (`aux1 = sin1 + sin2`,
`aux2 = cos1 + cos2`, `dd_error_1 = Δx·cos1`, `dd_error_2 = Δy·sin1`,
`dd_dev` the penalty derivative at the drive dot product, `dev_nh_abs` the
g2o sign of the pre-absolute-value non-holonomic expression). -/
noncomputable def diffDriveLinearizeOplus (conf1 conf2 : Pose) :
    Matrix (Fin 2) (Fin 3) ℝ × Matrix (Fin 2) (Fin 3) ℝ :=
  let deltaS_x := conf2.x - conf1.x
  let deltaS_y := conf2.y - conf1.y
  let cos1 := Real.cos conf1.theta
  let cos2 := Real.cos conf2.theta
  let sin1 := Real.sin conf1.theta
  let sin2 := Real.sin conf2.theta
  let aux1 := sin1 + sin2
  let aux2 := cos1 + cos2
  let dd_error_1 := deltaS_x * cos1
  let dd_error_2 := deltaS_y * sin1
  let dd_dev := penaltyBoundFromBelowDerivative (dd_error_1 + dd_error_2) 0 0
  let dev_nh_abs := g2oSign ((cos1 + cos2) * deltaS_y - (sin1 + sin2) * deltaS_x)
  (!![aux1 * dev_nh_abs, -aux2 * dev_nh_abs, (-dd_error_2 - dd_error_1) * dev_nh_abs;
      -cos1 * dd_dev, -sin1 * dd_dev, (-sin1 * deltaS_x + cos1 * deltaS_y) * dd_dev],
   !![-aux1 * dev_nh_abs, aux2 * dev_nh_abs, (-sin2 * deltaS_y - cos2 * deltaS_x) * dev_nh_abs;
      cos1 * dd_dev, sin1 * dd_dev, 0])

/-- The mutable per-edge state relevant to configuration binding and
persistence: the scalar measurement, the information matrix entry (0,0),
and the `cfg_` pointer (modelled as `Option TebConfig`, `none` = null). -/
structure EdgeState where
  measurement : ℝ
  info00 : ℝ
  cfg : Option TebConfig

/-- Constructor of both edge classes (`edge_kinematics.h` lines 81 to 85 and
252 to 256): it sets the measurement to 0 and the vertex pointers to NULL
but never writes the `cfg_` member, so `cfg_` (like the base-class
information matrix) keeps indeterminate initial contents; the model makes
those contents explicit parameters. -/
def edgeKinematicsConstructed (indeterminate_cfg : Option TebConfig)
    (indeterminate_info00 : ℝ) : EdgeState :=
  { measurement := 0, info00 := indeterminate_info00, cfg := indeterminate_cfg }

/-- setTebConfig (`edge_kinematics.h` lines 207 to 210 and 339 to 342). -/
def setTebConfig (e : EdgeState) (cfg : TebConfig) : EdgeState :=
  { e with cfg := some cfg }

/-- Diff-drive computeError behind its leading
`ROS_ASSERT_MSG(cfg_, ...)` (line 107): `none` models the assertion firing
on a null configuration pointer. -/
noncomputable def diffDriveComputeErrorChecked (e : EdgeState) (conf1 conf2 : Pose) :
    Option (ℝ × ℝ) :=
  match e.cfg with
  | none => none
  | some _ => some (diffDriveComputeError conf1 conf2)

/-- Diff-drive linearizeOplus behind its leading assertion (line 131). -/
noncomputable def diffDriveLinearizeOplusChecked (e : EdgeState) (conf1 conf2 : Pose) :
    Option (Matrix (Fin 2) (Fin 3) ℝ × Matrix (Fin 2) (Fin 3) ℝ) :=
  match e.cfg with
  | none => none
  | some _ => some (diffDriveLinearizeOplus conf1 conf2)

/-- Car-like computeError behind its leading assertion (line 278); this one
dereferences the bound configuration for `min_turning_radius`. -/
noncomputable def carlikeComputeErrorChecked (e : EdgeState) (conf1 conf2 : Pose) :
    Option (ℝ × ℝ) :=
  match e.cfg with
  | none => none
  | some cfg => some (carlikeComputeError cfg conf1 conf2)

/-- C6 (code bug): because the constructors leave `cfg_` uninitialized, a
freshly constructed edge whose indeterminate `cfg_` contents happen to be
non-null passes the assertion and silently computes a normal error vector
or Jacobian before `setTebConfig` was ever called — the deterministic
precondition fault the spec requires only happens when the indeterminate
contents happen to be null. -/
theorem edge_uninitialized_cfg_not_deterministic :
    diffDriveComputeErrorChecked (edgeKinematicsConstructed (some ⟨1⟩) 0) ⟨0, 0, 0⟩ ⟨1, 0, 0⟩ =
      some (diffDriveComputeError ⟨0, 0, 0⟩ ⟨1, 0, 0⟩) ∧
    diffDriveLinearizeOplusChecked (edgeKinematicsConstructed (some ⟨1⟩) 0) ⟨0, 0, 0⟩ ⟨1, 0, 0⟩ =
      some (diffDriveLinearizeOplus ⟨0, 0, 0⟩ ⟨1, 0, 0⟩) ∧
    carlikeComputeErrorChecked (edgeKinematicsConstructed (some ⟨1⟩) 0) ⟨0, 0, 0⟩ ⟨1, 0, 0⟩ =
      some (carlikeComputeError ⟨1⟩ ⟨0, 0, 0⟩ ⟨1, 0, 0⟩) ∧
    diffDriveComputeErrorChecked (edgeKinematicsConstructed none 0) ⟨0, 0, 0⟩ ⟨1, 0, 0⟩ = none ∧
    carlikeComputeErrorChecked (edgeKinematicsConstructed none 0) ⟨0, 0, 0⟩ ⟨1, 0, 0⟩ = none :=
  ⟨rfl, rfl, rfl, rfl, rfl⟩

/-- A token of the textual stream: a parseable number or a non-numeric word. -/
inductive Tok where
  | num (x : ℝ)
  | word (s : String)

/-- An input text stream: the remaining whitespace-separated tokens together
with the fail state of the C++ stream. -/
structure IStream where
  toks : List Tok
  fail : Bool

/-- Formatted extraction `is >> d` into a double, with C++11 semantics: on an
already-failed stream nothing happens and the target keeps its current
value `cur`; extraction at end of stream or at a non-numeric token stores 0
and puts the stream into the failed state; extraction at a numeric token
stores that number and consumes it. -/
def extractReal (s : IStream) (cur : ℝ) : IStream × ℝ :=
  if s.fail then (s, cur)
  else
    match s.toks with
    | [] => ({ s with fail := true }, 0)
    | Tok.num x :: rest => ({ s with toks := rest }, x)
    | Tok.word _ :: _ => ({ s with fail := true }, 0)

/-- EdgeKinematicsDiffDrive::read (`edge_kinematics.h` lines 185 to 191):
extracts into `_measurement`, then into `information()(0,0)`, and returns
true unconditionally. -/
def diffDriveRead (e : EdgeState) (s : IStream) : IStream × EdgeState × Bool :=
  let r1 := extractReal s e.measurement
  let r2 := extractReal r1.1 e.info00
  (r2.1, { e with measurement := r1.2, info00 := r2.2 }, true)

/-- EdgeKinematicsCarlike::read (`edge_kinematics.h` lines 317 to 323):
textually identical to the diff-drive read. -/
def carlikeRead (e : EdgeState) (s : IStream) : IStream × EdgeState × Bool :=
  let r1 := extractReal s e.measurement
  let r2 := extractReal r1.1 e.info00
  (r2.1, { e with measurement := r1.2, info00 := r2.2 }, true)

/-- EdgeKinematicsDiffDrive::write (`edge_kinematics.h` lines 196 to 201):
emits `information()(0,0)` followed by the human-readable trailer naming the
last computed error components; the emission of the measurement is
commented out in the source and therefore absent from the stream.  The
comma glued to the first error value is modelled as a separate word token,
which a numeric extraction rejects just the same.  The Bool is
`os.good()`, true on the model stream. -/
def diffDriveWrite (e : EdgeState) (lastError : ℝ × ℝ) : List Tok × Bool :=
  ([Tok.num e.info00, Tok.word "Error", Tok.word "NH-Constraint:", Tok.num lastError.1,
    Tok.word ",", Tok.word "Error", Tok.word "PosDriveDir:", Tok.num lastError.2], true)

/-- EdgeKinematicsCarlike::write (`edge_kinematics.h` lines 328 to 333):
textually identical to the diff-drive write. -/
def carlikeWrite (e : EdgeState) (lastError : ℝ × ℝ) : List Tok × Bool :=
  ([Tok.num e.info00, Tok.word "Error", Tok.word "NH-Constraint:", Tok.num lastError.1,
    Tok.word ",", Tok.word "Error", Tok.word "PosDriveDir:", Tok.num lastError.2], true)

/-- C7 counterexample: with measurement 1 and weight 2, reading back the
written stream does not restore the measurement (it becomes 2, the old
weight, because write never emits the measurement). -/
theorem write_read_roundtrip_counterexample :
    (diffDriveRead ⟨0, 0, none⟩
        ⟨(diffDriveWrite ⟨1, 2, none⟩ (0, 0)).1, false⟩).2.1.measurement ≠ 1 := by
  show (2:ℝ) ≠ 1
  norm_num

/-- C7 amended: for every written measurement, weight and error trailer, a
read of the written stream sets the measurement to the WRITTEN WEIGHT (the
first and only numeric field emitted), sets the information entry to 0 (the
second extraction hits the non-numeric trailer and fails with C++11
zero-on-failure semantics, leaving the stream failed), and still returns
true; the same holds for the car-like edge.  The two numeric fields
therefore round-trip only in the degenerate case `measurement = weight` and
`weight = 0`. -/
theorem write_read_roundtrip_actual (m w e0 e1 mr ir : ℝ)
    (cfg cfgr : Option TebConfig) :
    (diffDriveRead ⟨mr, ir, cfgr⟩
        ⟨(diffDriveWrite ⟨m, w, cfg⟩ (e0, e1)).1, false⟩).2.1.measurement = w ∧
    (diffDriveRead ⟨mr, ir, cfgr⟩
        ⟨(diffDriveWrite ⟨m, w, cfg⟩ (e0, e1)).1, false⟩).2.1.info00 = 0 ∧
    (diffDriveRead ⟨mr, ir, cfgr⟩
        ⟨(diffDriveWrite ⟨m, w, cfg⟩ (e0, e1)).1, false⟩).1.fail = true ∧
    (diffDriveRead ⟨mr, ir, cfgr⟩
        ⟨(diffDriveWrite ⟨m, w, cfg⟩ (e0, e1)).1, false⟩).2.2 = true ∧
    (carlikeRead ⟨mr, ir, cfgr⟩
        ⟨(carlikeWrite ⟨m, w, cfg⟩ (e0, e1)).1, false⟩).2.1.measurement = w ∧
    (carlikeRead ⟨mr, ir, cfgr⟩
        ⟨(carlikeWrite ⟨m, w, cfg⟩ (e0, e1)).1, false⟩).2.1.info00 = 0 := by
  refine ⟨rfl, rfl, rfl, rfl, rfl, rfl⟩

/-- C10: read returns true on every input stream and edge state, parseable
or not, empty or not, for both edge types. -/
theorem read_always_returns_true (e : EdgeState) (s : IStream) :
    (diffDriveRead e s).2.2 = true ∧ (carlikeRead e s).2.2 = true :=
  ⟨rfl, rfl⟩

/-- Unfolding of the first diff-drive error component. -/
theorem diffDriveComputeError_fst (p q : Pose) :
    (diffDriveComputeError p q).1 = |nhExpr p q| := rfl

/-- Unfolding of the second diff-drive error component. -/
theorem diffDriveComputeError_snd (p q : Pose) :
    (diffDriveComputeError p q).2 = penaltyBoundFromBelow (driveDot p q) 0 0 := rfl

/-- The g2o sign helper agrees with the Mathlib sign on the reals. -/
theorem g2oSign_eq_sign (x : ℝ) : g2oSign x = (SignType.sign x : ℝ) := by
  unfold g2oSign
  rcases lt_trichotomy x 0 with h | h | h
  · rw [if_neg (by linarith), if_pos h, sign_neg h]
    norm_num
  · rw [h]
    simp
  · rw [if_pos h, sign_pos h]
    norm_num

/-- Transport of a derivative along an equality of values. -/
theorem hasDerivAt_rw {f : ℝ → ℝ} {d e x : ℝ} (h : HasDerivAt f d x)
    (he : d = e) : HasDerivAt f e x := he ▸ h

/-- Chain rule through the absolute value away from its kink, with the g2o
sign of the inner value as the outer derivative. -/
theorem hasDerivAt_abs_comp {f : ℝ → ℝ} {d x : ℝ} (hf : HasDerivAt f d x)
    (hne : f x ≠ 0) :
    HasDerivAt (fun t => |f t|) (g2oSign (f x) * d) x := by
  have h := (hasDerivAt_abs hne).comp x hf
  rw [g2oSign_eq_sign]
  simpa [Function.comp] using h

/-- Chain rule through the zero-bound zero-epsilon from-below penalty away
from its kink, with `penaltyBoundFromBelowDerivative` as the outer
derivative. -/
theorem hasDerivAt_penalty_comp {f : ℝ → ℝ} {d x : ℝ} (hf : HasDerivAt f d x)
    (hne : f x ≠ 0) :
    HasDerivAt (fun t => penaltyBoundFromBelow (f t) 0 0)
      (penaltyBoundFromBelowDerivative (f x) 0 0 * d) x := by
  rcases lt_or_gt_of_ne hne with hneg | hpos
  · have hev : ∀ᶠ t in nhds x, f t < 0 :=
      Filter.Tendsto.eventually_lt_const hneg hf.continuousAt
    have heq : (fun t => penaltyBoundFromBelow (f t) 0 0) =ᶠ[nhds x]
        fun t => -f t + (0 + 0) := by
      filter_upwards [hev] with t ht
      unfold penaltyBoundFromBelow
      rw [if_neg (by rw [add_zero]; exact not_le.mpr ht)]
    have hder : penaltyBoundFromBelowDerivative (f x) 0 0 = -1 := by
      unfold penaltyBoundFromBelowDerivative
      rw [if_neg (by rw [add_zero]; exact not_le.mpr hneg)]
    have hd : HasDerivAt (fun t => -f t + (0 + 0)) (-d) x := (hf.neg).add_const _
    rw [hder]
    have hres := hd.congr_of_eventuallyEq heq
    simpa using hres
  · have hev : ∀ᶠ t in nhds x, 0 < f t :=
      Filter.Tendsto.eventually_const_lt hpos hf.continuousAt
    have heq : (fun t => penaltyBoundFromBelow (f t) 0 0) =ᶠ[nhds x]
        fun _ => (0:ℝ) := by
      filter_upwards [hev] with t ht
      unfold penaltyBoundFromBelow
      rw [if_pos (by rw [add_zero]; exact le_of_lt ht)]
    have hder : penaltyBoundFromBelowDerivative (f x) 0 0 = 0 := by
      unfold penaltyBoundFromBelowDerivative
      rw [if_pos (by rw [add_zero]; exact le_of_lt hpos)]
    rw [hder, zero_mul]
    exact (hasDerivAt_const x 0).congr_of_eventuallyEq heq

/-- C5: at every pose pair where the pre-absolute-value non-holonomic
expression is nonzero and the drive-direction penalty argument is away from
its kink, the twelve entries of the two Jacobian blocks produced by
`linearizeOplus` are the true partial derivatives of the two error
components of `computeError` with respect to `(x1, y1, θ1)` and
`(x2, y2, θ2)`. -/
theorem diffDrive_linearizeOplus_partial_derivatives (c1 c2 : Pose)
    (hnh : nhExpr c1 c2 ≠ 0) (hdd : driveDot c1 c2 ≠ 0) :
    HasDerivAt (fun t => (diffDriveComputeError ⟨t, c1.y, c1.theta⟩ c2).1)
      ((diffDriveLinearizeOplus c1 c2).1 0 0) c1.x ∧
    HasDerivAt (fun t => (diffDriveComputeError ⟨c1.x, t, c1.theta⟩ c2).1)
      ((diffDriveLinearizeOplus c1 c2).1 0 1) c1.y ∧
    HasDerivAt (fun t => (diffDriveComputeError ⟨c1.x, c1.y, t⟩ c2).1)
      ((diffDriveLinearizeOplus c1 c2).1 0 2) c1.theta ∧
    HasDerivAt (fun t => (diffDriveComputeError ⟨t, c1.y, c1.theta⟩ c2).2)
      ((diffDriveLinearizeOplus c1 c2).1 1 0) c1.x ∧
    HasDerivAt (fun t => (diffDriveComputeError ⟨c1.x, t, c1.theta⟩ c2).2)
      ((diffDriveLinearizeOplus c1 c2).1 1 1) c1.y ∧
    HasDerivAt (fun t => (diffDriveComputeError ⟨c1.x, c1.y, t⟩ c2).2)
      ((diffDriveLinearizeOplus c1 c2).1 1 2) c1.theta ∧
    HasDerivAt (fun t => (diffDriveComputeError c1 ⟨t, c2.y, c2.theta⟩).1)
      ((diffDriveLinearizeOplus c1 c2).2 0 0) c2.x ∧
    HasDerivAt (fun t => (diffDriveComputeError c1 ⟨c2.x, t, c2.theta⟩).1)
      ((diffDriveLinearizeOplus c1 c2).2 0 1) c2.y ∧
    HasDerivAt (fun t => (diffDriveComputeError c1 ⟨c2.x, c2.y, t⟩).1)
      ((diffDriveLinearizeOplus c1 c2).2 0 2) c2.theta ∧
    HasDerivAt (fun t => (diffDriveComputeError c1 ⟨t, c2.y, c2.theta⟩).2)
      ((diffDriveLinearizeOplus c1 c2).2 1 0) c2.x ∧
    HasDerivAt (fun t => (diffDriveComputeError c1 ⟨c2.x, t, c2.theta⟩).2)
      ((diffDriveLinearizeOplus c1 c2).2 1 1) c2.y ∧
    HasDerivAt (fun t => (diffDriveComputeError c1 ⟨c2.x, c2.y, t⟩).2)
      ((diffDriveLinearizeOplus c1 c2).2 1 2) c2.theta := by
  refine ⟨?_, ?_, ?_, ?_, ?_, ?_, ?_, ?_, ?_, ?_, ?_, ?_⟩
  · -- nh with respect to x1
    have hf : HasDerivAt
        (fun t => (Real.cos c1.theta + Real.cos c2.theta) * (c2.y - c1.y) -
          (Real.sin c1.theta + Real.sin c2.theta) * (c2.x - t))
        (-((Real.sin c1.theta + Real.sin c2.theta) * -1)) c1.x :=
      HasDerivAt.const_sub _ (HasDerivAt.const_mul _ ((hasDerivAt_id c1.x).const_sub c2.x))
    refine hasDerivAt_rw (hasDerivAt_abs_comp hf hnh) ?_
    have h1 : (diffDriveLinearizeOplus c1 c2).1 0 0 =
        (Real.sin c1.theta + Real.sin c2.theta) * g2oSign (nhExpr c1 c2) := rfl
    rw [h1]
    unfold nhExpr
    ring
  · -- nh with respect to y1
    have hf : HasDerivAt
        (fun t => (Real.cos c1.theta + Real.cos c2.theta) * (c2.y - t) -
          (Real.sin c1.theta + Real.sin c2.theta) * (c2.x - c1.x))
        ((Real.cos c1.theta + Real.cos c2.theta) * -1) c1.y :=
      HasDerivAt.sub_const
        (HasDerivAt.const_mul _ ((hasDerivAt_id c1.y).const_sub c2.y)) _
    refine hasDerivAt_rw (hasDerivAt_abs_comp hf hnh) ?_
    have h1 : (diffDriveLinearizeOplus c1 c2).1 0 1 =
        (-(Real.cos c1.theta + Real.cos c2.theta)) * g2oSign (nhExpr c1 c2) := rfl
    rw [h1]
    unfold nhExpr
    ring
  · -- nh with respect to theta1
    have hf : HasDerivAt
        (fun t => (Real.cos t + Real.cos c2.theta) * (c2.y - c1.y) -
          (Real.sin t + Real.sin c2.theta) * (c2.x - c1.x))
        (-Real.sin c1.theta * (c2.y - c1.y) - Real.cos c1.theta * (c2.x - c1.x))
        c1.theta :=
      HasDerivAt.sub
        (((Real.hasDerivAt_cos c1.theta).add_const (Real.cos c2.theta)).mul_const _)
        (((Real.hasDerivAt_sin c1.theta).add_const (Real.sin c2.theta)).mul_const _)
    refine hasDerivAt_rw (hasDerivAt_abs_comp hf hnh) ?_
    have h1 : (diffDriveLinearizeOplus c1 c2).1 0 2 =
        (-((c2.y - c1.y) * Real.sin c1.theta) - (c2.x - c1.x) * Real.cos c1.theta) *
          g2oSign (nhExpr c1 c2) := rfl
    rw [h1]
    unfold nhExpr
    ring
  · -- drive direction with respect to x1
    have hf : HasDerivAt
        (fun t => (c2.x - t) * Real.cos c1.theta + (c2.y - c1.y) * Real.sin c1.theta)
        (-1 * Real.cos c1.theta) c1.x :=
      HasDerivAt.add_const
        (((hasDerivAt_id c1.x).const_sub c2.x).mul_const _) _
    refine hasDerivAt_rw (hasDerivAt_penalty_comp hf hdd) ?_
    have h1 : (diffDriveLinearizeOplus c1 c2).1 1 0 =
        (-Real.cos c1.theta) * penaltyBoundFromBelowDerivative (driveDot c1 c2) 0 0 := rfl
    rw [h1]
    unfold driveDot
    ring
  · -- drive direction with respect to y1
    have hf : HasDerivAt
        (fun t => (c2.x - c1.x) * Real.cos c1.theta + (c2.y - t) * Real.sin c1.theta)
        (-1 * Real.sin c1.theta) c1.y :=
      HasDerivAt.const_add _
        (((hasDerivAt_id c1.y).const_sub c2.y).mul_const _)
    refine hasDerivAt_rw (hasDerivAt_penalty_comp hf hdd) ?_
    have h1 : (diffDriveLinearizeOplus c1 c2).1 1 1 =
        (-Real.sin c1.theta) * penaltyBoundFromBelowDerivative (driveDot c1 c2) 0 0 := rfl
    rw [h1]
    unfold driveDot
    ring
  · -- drive direction with respect to theta1
    have hf : HasDerivAt
        (fun t => (c2.x - c1.x) * Real.cos t + (c2.y - c1.y) * Real.sin t)
        ((c2.x - c1.x) * -Real.sin c1.theta + (c2.y - c1.y) * Real.cos c1.theta)
        c1.theta :=
      HasDerivAt.add
        (HasDerivAt.const_mul _ (Real.hasDerivAt_cos c1.theta))
        (HasDerivAt.const_mul _ (Real.hasDerivAt_sin c1.theta))
    refine hasDerivAt_rw (hasDerivAt_penalty_comp hf hdd) ?_
    have h1 : (diffDriveLinearizeOplus c1 c2).1 1 2 =
        ((-Real.sin c1.theta) * (c2.x - c1.x) + Real.cos c1.theta * (c2.y - c1.y)) *
          penaltyBoundFromBelowDerivative (driveDot c1 c2) 0 0 := rfl
    rw [h1]
    unfold driveDot
    ring
  · -- nh with respect to x2
    have hf : HasDerivAt
        (fun t => (Real.cos c1.theta + Real.cos c2.theta) * (c2.y - c1.y) -
          (Real.sin c1.theta + Real.sin c2.theta) * (t - c1.x))
        (-((Real.sin c1.theta + Real.sin c2.theta) * 1)) c2.x :=
      HasDerivAt.const_sub _ (HasDerivAt.const_mul _ ((hasDerivAt_id c2.x).sub_const c1.x))
    refine hasDerivAt_rw (hasDerivAt_abs_comp hf hnh) ?_
    have h1 : (diffDriveLinearizeOplus c1 c2).2 0 0 =
        (-(Real.sin c1.theta + Real.sin c2.theta)) * g2oSign (nhExpr c1 c2) := rfl
    rw [h1]
    unfold nhExpr
    ring
  · -- nh with respect to y2
    have hf : HasDerivAt
        (fun t => (Real.cos c1.theta + Real.cos c2.theta) * (t - c1.y) -
          (Real.sin c1.theta + Real.sin c2.theta) * (c2.x - c1.x))
        ((Real.cos c1.theta + Real.cos c2.theta) * 1) c2.y :=
      HasDerivAt.sub_const
        (HasDerivAt.const_mul _ ((hasDerivAt_id c2.y).sub_const c1.y)) _
    refine hasDerivAt_rw (hasDerivAt_abs_comp hf hnh) ?_
    have h1 : (diffDriveLinearizeOplus c1 c2).2 0 1 =
        (Real.cos c1.theta + Real.cos c2.theta) * g2oSign (nhExpr c1 c2) := rfl
    rw [h1]
    unfold nhExpr
    ring
  · -- nh with respect to theta2
    have hf : HasDerivAt
        (fun t => (Real.cos c1.theta + Real.cos t) * (c2.y - c1.y) -
          (Real.sin c1.theta + Real.sin t) * (c2.x - c1.x))
        (-Real.sin c2.theta * (c2.y - c1.y) - Real.cos c2.theta * (c2.x - c1.x))
        c2.theta :=
      HasDerivAt.sub
        (((Real.hasDerivAt_cos c2.theta).const_add (Real.cos c1.theta)).mul_const _)
        (((Real.hasDerivAt_sin c2.theta).const_add (Real.sin c1.theta)).mul_const _)
    refine hasDerivAt_rw (hasDerivAt_abs_comp hf hnh) ?_
    have h1 : (diffDriveLinearizeOplus c1 c2).2 0 2 =
        ((-Real.sin c2.theta) * (c2.y - c1.y) - Real.cos c2.theta * (c2.x - c1.x)) *
          g2oSign (nhExpr c1 c2) := rfl
    rw [h1]
    unfold nhExpr
    ring
  · -- drive direction with respect to x2
    have hf : HasDerivAt
        (fun t => (t - c1.x) * Real.cos c1.theta + (c2.y - c1.y) * Real.sin c1.theta)
        (1 * Real.cos c1.theta) c2.x :=
      HasDerivAt.add_const
        (((hasDerivAt_id c2.x).sub_const c1.x).mul_const _) _
    refine hasDerivAt_rw (hasDerivAt_penalty_comp hf hdd) ?_
    have h1 : (diffDriveLinearizeOplus c1 c2).2 1 0 =
        Real.cos c1.theta * penaltyBoundFromBelowDerivative (driveDot c1 c2) 0 0 := rfl
    rw [h1]
    unfold driveDot
    ring
  · -- drive direction with respect to y2
    have hf : HasDerivAt
        (fun t => (c2.x - c1.x) * Real.cos c1.theta + (t - c1.y) * Real.sin c1.theta)
        (1 * Real.sin c1.theta) c2.y :=
      HasDerivAt.const_add _
        (((hasDerivAt_id c2.y).sub_const c1.y).mul_const _)
    refine hasDerivAt_rw (hasDerivAt_penalty_comp hf hdd) ?_
    have h1 : (diffDriveLinearizeOplus c1 c2).2 1 1 =
        Real.sin c1.theta * penaltyBoundFromBelowDerivative (driveDot c1 c2) 0 0 := rfl
    rw [h1]
    unfold driveDot
    ring
  · -- drive direction with respect to theta2: the slice is constant
    exact hasDerivAt_const c2.theta (penaltyBoundFromBelow (driveDot c1 c2) 0 0)

/-- Witness for C5: at poses `(0,0,0)` and `(1,1,0)` the non-holonomic
expression is 2 and the drive dot product is 1, both nonzero, and the
(0,0) entry of the first Jacobian block is the derivative of the first
error component with respect to `x1`. -/
theorem diffDrive_linearizeOplus_partial_derivatives_witness :
    nhExpr ⟨0, 0, 0⟩ ⟨1, 1, 0⟩ ≠ 0 ∧ driveDot ⟨0, 0, 0⟩ ⟨1, 1, 0⟩ ≠ 0 ∧
    HasDerivAt (fun t => (diffDriveComputeError ⟨t, 0, 0⟩ ⟨1, 1, 0⟩).1)
      ((diffDriveLinearizeOplus ⟨0, 0, 0⟩ ⟨1, 1, 0⟩).1 0 0) 0 := by
  have hne1 : nhExpr ⟨0, 0, 0⟩ ⟨1, 1, 0⟩ ≠ 0 := by
    unfold nhExpr
    norm_num
  have hne2 : driveDot ⟨0, 0, 0⟩ ⟨1, 1, 0⟩ ≠ 0 := by
    unfold driveDot
    norm_num
  exact ⟨hne1, hne2,
    (diffDrive_linearizeOplus_partial_derivatives ⟨0, 0, 0⟩ ⟨1, 1, 0⟩ hne1 hne2).1⟩

end TebLocalPlanner
